import Mathlib

/-!
Verification of the binary floating-point layout model of
`src/include/boost/charconv/detail/bit_layouts.hpp`.

The header contributes two things:
* the format descriptor registry: the four `ieee754_binaryNN` structs of
  `constexpr int` constants;
* the bitfield overlays `IEEEl2bits` (three platform variants, selected by
  the `LDBL_MANT_DIG` / `LDBL_MAX_EXP` preprocessor chain) and
  `IEEEbinary128`, each with a little-endian and a big-endian field order.

Each overlay is embedded as its declared, ordered list of bitfields.  The
`decompose` / `compose` operations over those overlays are not functions in
the header (they are the compiler's bitfield accesses); they are modelled
from the spec as shift/mask extraction and packing over the declared field
lists: little-endian declarations allocate fields starting at the least
significant bit, big-endian declarations starting at the most significant
bit, so the numeric bit pattern is identical under both orders.
-/

namespace Charconv

/-- Format descriptor: the shape shared by the four `ieee754_binaryNN`
structs, whose members are all `constexpr int`. -/
structure FormatDescriptor where
  significand_bits : Int
  exponent_bits : Int
  min_exponent : Int
  max_exponent : Int
  exponent_bias : Int
  decimal_digits : Int
deriving DecidableEq, Repr

/-- Constants of `ieee754_binary32` (source lines 18-26). -/
def ieee754_binary32 : FormatDescriptor :=
  { significand_bits := 23
    exponent_bits := 8
    min_exponent := -126
    max_exponent := 127
    exponent_bias := -127
    decimal_digits := 9 }

/-- Constants of `ieee754_binary64` (source lines 28-36). -/
def ieee754_binary64 : FormatDescriptor :=
  { significand_bits := 52
    exponent_bits := 11
    min_exponent := -1022
    max_exponent := 1023
    exponent_bias := -1023
    decimal_digits := 17 }

/-- Constants of `ieee754_binary80` (source lines 58-66). -/
def ieee754_binary80 : FormatDescriptor :=
  { significand_bits := 63
    exponent_bits := 15
    min_exponent := -16382
    max_exponent := 16383
    exponent_bias := 16383
    decimal_digits := 18 }

/-- Constants of `ieee754_binary128` (source lines 129-137). -/
def ieee754_binary128 : FormatDescriptor :=
  { significand_bits := 112
    exponent_bits := 15
    min_exponent := -16382
    max_exponent := 16383
    exponent_bias := 16383
    decimal_digits := 33 }

/-- The four supported binary kinds. -/
inductive BinaryKind
  | binary32
  | binary64
  | binary80
  | binary128
deriving DecidableEq, Repr, Fintype

/-- Registry access: kind to descriptor, a total pure function. -/
def lookup : BinaryKind → FormatDescriptor
  | .binary32 => ieee754_binary32
  | .binary64 => ieee754_binary64
  | .binary80 => ieee754_binary80
  | .binary128 => ieee754_binary128

/-- The kinds in the order binary32, binary64, binary80, binary128. -/
def kindOrder : List BinaryKind :=
  [.binary32, .binary64, .binary80, .binary128]

/-- Raw bit-pattern width of each kind. -/
def kindBits : BinaryKind → Nat
  | .binary32 => 32
  | .binary64 => 64
  | .binary80 => 80
  | .binary128 => 128

/-- Endianness of the target, mirroring `BOOST_CHARCONV_ENDIAN_LITTLE_BYTE`. -/
inductive Endianness
  | little
  | big
deriving DecidableEq, Repr, Fintype

/-- One declared bitfield member: its name, its declared bit width, and
whether it is a padding member that carries no information. -/
structure BitField where
  name : String
  width : Nat
  isPad : Bool
deriving DecidableEq, Repr

/-- Bitfields of the 80-bit `IEEEl2bits` variant, little-endian branch
(source lines 43-48): `mantissa_l:32, mantissa_h:32, exponent:15, sign:1,
pad:32`. -/
def IEEEl2bits80_le : List BitField :=
  [⟨"mantissa_l", 32, false⟩, ⟨"mantissa_h", 32, false⟩,
   ⟨"exponent", 15, false⟩, ⟨"sign", 1, false⟩, ⟨"pad", 32, true⟩]

/-- Bitfields of the 80-bit `IEEEl2bits` variant, big-endian branch
(source lines 49-54). -/
def IEEEl2bits80_be : List BitField :=
  [⟨"pad", 32, true⟩, ⟨"sign", 1, false⟩, ⟨"exponent", 15, false⟩,
   ⟨"mantissa_h", 32, false⟩, ⟨"mantissa_l", 32, false⟩]

/-- Bitfields of the 128-bit `IEEEl2bits` variant, little-endian branch
(source lines 75-79): `mantissa_l:64, mantissa_h:48, exponent:15, sign:1`. -/
def IEEEl2bits128_le : List BitField :=
  [⟨"mantissa_l", 64, false⟩, ⟨"mantissa_h", 48, false⟩,
   ⟨"exponent", 15, false⟩, ⟨"sign", 1, false⟩]

/-- Bitfields of the 128-bit `IEEEl2bits` variant, big-endian branch
(source lines 80-84). -/
def IEEEl2bits128_be : List BitField :=
  [⟨"sign", 1, false⟩, ⟨"exponent", 15, false⟩,
   ⟨"mantissa_h", 48, false⟩, ⟨"mantissa_l", 64, false⟩]

/-- Bitfields of the 64-bit (aliased to double) `IEEEl2bits` variant,
little-endian branch (source lines 93-97): `mantissa_l:32, mantissa_h:20,
exponent:11, sign:1`. -/
def IEEEl2bits64_le : List BitField :=
  [⟨"mantissa_l", 32, false⟩, ⟨"mantissa_h", 20, false⟩,
   ⟨"exponent", 11, false⟩, ⟨"sign", 1, false⟩]

/-- Bitfields of the 64-bit `IEEEl2bits` variant, big-endian branch
(source lines 98-102). -/
def IEEEl2bits64_be : List BitField :=
  [⟨"sign", 1, false⟩, ⟨"exponent", 11, false⟩,
   ⟨"mantissa_h", 20, false⟩, ⟨"mantissa_l", 32, false⟩]

/-- Bitfields of `IEEEbinary128`, little-endian branch (source lines
116-120). -/
def IEEEbinary128_le : List BitField :=
  [⟨"mantissa_l", 64, false⟩, ⟨"mantissa_h", 48, false⟩,
   ⟨"exponent", 15, false⟩, ⟨"sign", 1, false⟩]

/-- Bitfields of `IEEEbinary128`, big-endian branch (source lines
121-125). -/
def IEEEbinary128_be : List BitField :=
  [⟨"sign", 1, false⟩, ⟨"exponent", 15, false⟩,
   ⟨"mantissa_h", 48, false⟩, ⟨"mantissa_l", 64, false⟩]

/-- Modelled from the spec: no bitfield overlay for a standalone binary32
is declared in the header (only the native long-double overlays and
`IEEEbinary128` are); fields follow the spec's little-endian ordering rule
(significand low bits first, then exponent, then sign) and the
`ieee754_binary32` descriptor widths with an implicit leading bit. -/
def binary32_le : List BitField :=
  [⟨"mantissa", 23, false⟩, ⟨"exponent", 8, false⟩, ⟨"sign", 1, false⟩]

/-- Modelled from the spec: big-endian field order for binary32, the exact
reverse of the little-endian order. -/
def binary32_be : List BitField :=
  [⟨"sign", 1, false⟩, ⟨"exponent", 8, false⟩, ⟨"mantissa", 23, false⟩]

/-- Native 128-bit long-double overlay, by endianness branch. -/
def IEEEl2bits128_fields : Endianness → List BitField
  | .little => IEEEl2bits128_le
  | .big => IEEEl2bits128_be

/-- Fixed quad overlay `IEEEbinary128`, by endianness branch. -/
def IEEEbinary128_fields : Endianness → List BitField
  | .little => IEEEbinary128_le
  | .big => IEEEbinary128_be

/-- Declared field list used for each kind under each endianness:
binary80 uses the 80-bit `IEEEl2bits` variant, binary64 the 64-bit
(aliased) variant, binary128 the fixed `IEEEbinary128` overlay, and
binary32 the spec-modelled overlay. -/
def layoutFields : BinaryKind → Endianness → List BitField
  | .binary32, .little => binary32_le
  | .binary32, .big => binary32_be
  | .binary64, .little => IEEEl2bits64_le
  | .binary64, .big => IEEEl2bits64_be
  | .binary80, .little => IEEEl2bits80_le
  | .binary80, .big => IEEEl2bits80_be
  | .binary128, .little => IEEEbinary128_le
  | .binary128, .big => IEEEbinary128_be

/-- The three recognized extended layouts plus the unsupported fallback. -/
inductive LayoutKind
  | Extended80
  | Quad128
  | Aliased64
  | Unsupported
deriving DecidableEq, Repr, Fintype

/-- Layout selection chain for the native extended type (source lines
39-112): probes `LDBL_MANT_DIG` and `LDBL_MAX_EXP`; an unmatched pair
defines `BOOST_MATH_UNSUPPORTED_LONG_DOUBLE`. -/
def selectLayout (mantDig maxExp : Nat) : LayoutKind :=
  if mantDig = 64 ∧ maxExp = 16384 then .Extended80
  else if mantDig = 113 ∧ maxExp = 16384 then .Quad128
  else if mantDig = 53 ∧ maxExp = 1024 then .Aliased64
  else .Unsupported

/-- Order a declared field list by increasing bit significance: a
little-endian declaration already allocates from the least significant bit
up; a big-endian declaration allocates from the most significant bit down,
so its reverse is the least-significant-first order. -/
def lsbOf (e : Endianness) (l : List BitField) : List BitField :=
  match e with
  | .little => l
  | .big => l.reverse

/-- Field list of a kind in least-significant-first order. -/
def lsbFields (k : BinaryKind) (e : Endianness) : List BitField :=
  lsbOf e (layoutFields k e)

/-- Modelled from the spec: `decompose` extracts each declared field of a
raw bit pattern by bit position only, least significant field first; it
never validates numeric meaning. -/
def decomposeFields : List BitField → Nat → List Nat
  | [], _ => []
  | f :: fs, n => n % 2 ^ f.width :: decomposeFields fs (n / 2 ^ f.width)

/-- Modelled from the spec: `compose` packs field values back into a raw
bit pattern in the same least-significant-first order, truncating each
value to its declared width and always zero-filling padding fields. -/
def composeFields : List BitField → List Nat → Nat
  | [], _ => 0
  | _ :: _, [] => 0
  | f :: fs, v :: vs =>
      (if f.isPad then 0 else v % 2 ^ f.width) + 2 ^ f.width * composeFields fs vs

/-- Decompose a raw bit pattern of the given kind. -/
def decompose (k : BinaryKind) (e : Endianness) (n : Nat) : List Nat :=
  decomposeFields (lsbFields k e) n

/-- Compose a raw bit pattern of the given kind from field values given in
least-significant-first order. -/
def compose (k : BinaryKind) (e : Endianness) (vs : List Nat) : Nat :=
  composeFields (lsbFields k e) vs

/-- Sum of all declared field widths of an overlay, padding included. -/
def totalWidth (l : List BitField) : Nat :=
  (l.map BitField.width).sum

/-- Sum of the non-padding field widths of an overlay. -/
def dataWidth (l : List BitField) : Nat :=
  ((l.filter fun f => !f.isPad).map BitField.width).sum

/-- Statement that every padding field of the layout reads zero in the
given pattern, walking the fields least significant first. -/
def padsClear : List BitField → Nat → Prop
  | [], _ => True
  | f :: fs, n => (f.isPad = true → n % 2 ^ f.width = 0) ∧ padsClear fs (n / 2 ^ f.width)

theorem composeFields_decomposeFields (l : List BitField) :
    ∀ n : Nat, padsClear l n →
      composeFields l (decomposeFields l n) = n % 2 ^ totalWidth l := by
  induction l with
  | nil =>
    intro n _
    simp [composeFields, decomposeFields, totalWidth, Nat.mod_one]
  | cons f fs ih =>
    intro n h
    obtain ⟨hp, hrest⟩ := h
    have hw : totalWidth (f :: fs) = f.width + totalWidth fs := by
      simp [totalWidth]
    rw [decomposeFields, composeFields, hw, pow_add, Nat.mod_mul, ih _ hrest]
    by_cases hpad : f.isPad
    · rw [if_pos hpad, hp hpad]
    · rw [if_neg hpad, Nat.mod_mod_of_dvd n dvd_rfl]

theorem decomposeFields_length (l : List BitField) (n : Nat) :
    (decomposeFields l n).length = l.length := by
  induction l generalizing n with
  | nil => rfl
  | cons f fs ih => simp [decomposeFields, ih]

theorem decomposeFields_bounded (l : List BitField) (n : Nat) :
    List.Forall₂ (fun v f => v < 2 ^ f.width) (decomposeFields l n) l := by
  induction l generalizing n with
  | nil => exact List.Forall₂.nil
  | cons f fs ih =>
    exact List.Forall₂.cons (Nat.mod_lt _ (Nat.pos_pow_of_pos _ (by norm_num))) (ih _)

theorem lsbFields_big_eq_little (k : BinaryKind) (e : Endianness) :
    lsbFields k e = lsbFields k .little := by
  cases k <;> cases e <;> rfl

/-- Claim C1: for every supported kind and both endiannesses, decomposing
any raw bit pattern of the kind's width and composing the fields back
reproduces the pattern exactly, covering in particular the all-zero
pattern, infinity and NaN encodings, the sign-bit-only pattern, and the
binary80 unnormal patterns. -/
theorem decompose_compose_roundtrip (k : BinaryKind) (e : Endianness) (n : Nat)
    (h : n < 2 ^ kindBits k) : compose k e (decompose k e n) = n := by
  rw [compose, decompose, lsbFields_big_eq_little]
  cases k with
  | binary32 =>
    rw [composeFields_decomposeFields]
    · exact Nat.mod_eq_of_lt h
    · simp [padsClear, lsbFields, lsbOf, layoutFields, binary32_le]
  | binary64 =>
    rw [composeFields_decomposeFields]
    · exact Nat.mod_eq_of_lt h
    · simp [padsClear, lsbFields, lsbOf, layoutFields, IEEEl2bits64_le]
  | binary80 =>
    rw [composeFields_decomposeFields]
    · exact Nat.mod_eq_of_lt (lt_trans h (by decide))
    · refine ⟨by simp, by simp, by simp, by simp, ?_, trivial⟩
      intro _
      have h80 : n / 2 ^ 80 = 0 := Nat.div_eq_of_lt h
      rw [Nat.div_div_eq_div_mul, Nat.div_div_eq_div_mul, Nat.div_div_eq_div_mul]
      norm_num
      omega
  | binary128 =>
    rw [composeFields_decomposeFields]
    · exact Nat.mod_eq_of_lt h
    · simp [padsClear, lsbFields, lsbOf, layoutFields, IEEEbinary128_le]

/-- Witness for C1: the binary80 unnormal pattern with exponent field 1
and integer bit 0 round-trips bit-exactly. -/
theorem decompose_compose_roundtrip_witness :
    2 ^ 64 + 1 < 2 ^ kindBits BinaryKind.binary80 ∧
    compose .binary80 .little (decompose .binary80 .little (2 ^ 64 + 1)) = 2 ^ 64 + 1 :=
  ⟨by decide, decompose_compose_roundtrip .binary80 .little (2 ^ 64 + 1) (by decide)⟩

/-- Counterexample to claim C2 as stated: the declared field widths of the
active binary80 layout (which include the declared 32-bit `pad` member)
sum to 112, not to 80. -/
theorem binary80_width_sum_counterexample :
    totalWidth (layoutFields .binary80 .little) = 112 ∧
    ¬ totalWidth (layoutFields .binary80 .little) = 80 := by
  decide

/-- Claim C2 (amended): for every kind and endianness the non-padding
field widths sum to the kind's raw pattern width 32/64/80/128 and equal
sign(1) + exponent_bits + significand_bits, plus the explicit integer bit
only for binary80; the full declared sums are 32, 64, 112 (80 data bits
plus the declared 32-bit pad), and 128. -/
theorem layout_width_sums :
    (∀ k e, dataWidth (layoutFields k e) = kindBits k) ∧
    (∀ e, totalWidth (layoutFields .binary32 e) = 32) ∧
    (∀ e, totalWidth (layoutFields .binary64 e) = 64) ∧
    (∀ e, totalWidth (layoutFields .binary80 e) = 112) ∧
    (∀ e, totalWidth (layoutFields .binary128 e) = 128) ∧
    (∀ k e, (dataWidth (layoutFields k e) : Int) =
      1 + (lookup k).exponent_bits + (lookup k).significand_bits +
        (if k = .binary80 then 1 else 0)) := by
  decide

/-- Claim C3: binary80 and binary128 carry the positive additive bias
16383 (so the stored field of the largest normal exponent is
max_exponent + bias = 2^15 - 2), while binary32 and binary64 express
their biases as the negative constants -127 and -1023, used by
subtraction (max_exponent - bias = 2^e - 2, whereas adding them would
collapse the stored field to 0). -/
theorem exponent_bias_sign_conventions :
    ieee754_binary80.exponent_bias = 16383 ∧
    ieee754_binary128.exponent_bias = 16383 ∧
    ieee754_binary32.exponent_bias = -127 ∧
    ieee754_binary64.exponent_bias = -1023 ∧
    ieee754_binary80.max_exponent + ieee754_binary80.exponent_bias = 2 ^ 15 - 2 ∧
    ieee754_binary128.max_exponent + ieee754_binary128.exponent_bias = 2 ^ 15 - 2 ∧
    ieee754_binary32.max_exponent - ieee754_binary32.exponent_bias = 2 ^ 8 - 2 ∧
    ieee754_binary64.max_exponent - ieee754_binary64.exponent_bias = 2 ^ 11 - 2 ∧
    ieee754_binary32.max_exponent + ieee754_binary32.exponent_bias = 0 ∧
    ieee754_binary64.max_exponent + ieee754_binary64.exponent_bias = 0 := by
  decide

/-- Claim C4: the registry's literal constants are exactly
decimal_digits = {9, 17, 18, 33}, exponent_bits = {8, 11, 15, 15} and
significand_bits = {23, 52, 63, 112} across
{binary32, binary64, binary80, binary128}. -/
theorem descriptor_constant_table :
    kindOrder.map (fun k => (lookup k).decimal_digits) = [9, 17, 18, 33] ∧
    kindOrder.map (fun k => (lookup k).exponent_bits) = [8, 11, 15, 15] ∧
    kindOrder.map (fun k => (lookup k).significand_bits) = [23, 52, 63, 112] := by
  decide

/-- Claim C5: for all four kinds,
max_exponent - min_exponent + 1 = 2 ^ exponent_bits - 2. -/
theorem exponent_range_consistency :
    ∀ k : BinaryKind,
      (lookup k).max_exponent - (lookup k).min_exponent + 1 =
        2 ^ ((lookup k).exponent_bits).toNat - 2 := by
  decide

/-- Claim C6: the build-time probe of the native extended type maps
64 significand digits with exponent bound 16384 to Extended80, 113 digits
with 16384 to Quad128, 53 digits with 1024 to Aliased64, and every other
combination to Unsupported. -/
theorem selectLayout_mapping :
    selectLayout 64 16384 = LayoutKind.Extended80 ∧
    selectLayout 113 16384 = LayoutKind.Quad128 ∧
    selectLayout 53 1024 = LayoutKind.Aliased64 ∧
    ∀ d b, ¬ ((d = 64 ∧ b = 16384) ∨ (d = 113 ∧ b = 16384) ∨ (d = 53 ∧ b = 1024)) →
      selectLayout d b = LayoutKind.Unsupported := by
  refine ⟨by decide, by decide, by decide, ?_⟩
  intro d b h
  unfold selectLayout
  split_ifs with h1 h2 h3 <;> tauto

/-- Witness for C6: an unmatched probe, 0 digits with bound 0, resolves to
the Unsupported layout. -/
theorem selectLayout_mapping_witness :
    selectLayout 0 0 = LayoutKind.Unsupported :=
  selectLayout_mapping.2.2.2 0 0 (by decide)

/-- Claim C7: decompose and compose are total functions of the raw
pattern: on every input, decompose yields exactly one value per declared
field, each within its declared width, with no error path; the only
failure condition in the component is the configuration-time Unsupported
outcome of the layout probe. -/
theorem decompose_compose_totality :
    (∀ k e n, (decompose k e n).length = (lsbFields k e).length) ∧
    (∀ k e n, List.Forall₂ (fun v f => v < 2 ^ f.width) (decompose k e n) (lsbFields k e)) ∧
    (∀ d b, selectLayout d b = LayoutKind.Unsupported ↔
      ¬ ((d = 64 ∧ b = 16384) ∨ (d = 113 ∧ b = 16384) ∨ (d = 53 ∧ b = 1024))) := by
  refine ⟨fun k e n => decomposeFields_length _ _,
    fun k e n => decomposeFields_bounded _ _, fun d b => ?_⟩
  unfold selectLayout
  constructor
  · intro hu
    split_ifs at hu
    simp_all
  · intro h
    split_ifs with h1 h2 h3 <;> tauto

/-- Claim C8: under little-endian field order the first declared field is
the low significand word, progressing through the high significand word,
the exponent, then the sign (then padding where present); the big-endian
declaration order is the exact reverse; and the first field in
least-significant-first order receives the low bits of the pattern. -/
theorem field_ordering :
    (∀ k : BinaryKind, layoutFields k .big = (layoutFields k .little).reverse) ∧
    (layoutFields .binary80 .little).map BitField.name =
      ["mantissa_l", "mantissa_h", "exponent", "sign", "pad"] ∧
    (layoutFields .binary128 .little).map BitField.name =
      ["mantissa_l", "mantissa_h", "exponent", "sign"] ∧
    (layoutFields .binary64 .little).map BitField.name =
      ["mantissa_l", "mantissa_h", "exponent", "sign"] ∧
    (layoutFields .binary32 .little).map BitField.name =
      ["mantissa", "exponent", "sign"] ∧
    (∀ k e n, (decompose k e n).take 1 =
      ((lsbFields k e).take 1).map fun f => n % 2 ^ f.width) := by
  refine ⟨by decide, by decide, by decide, by decide, by decide, fun k e n => ?_⟩
  cases k <;> cases e <;> rfl

/-- Claim C9: the binary64 pattern 0x3FF0000000000000 (the value 1.0)
decomposes to mantissa_l = 0, mantissa_h = 0, exponent field 1023,
sign 0, and the binary32 pattern 0xC0000000 (the value -2.0) decomposes
to mantissa = 0, exponent field 128, sign 1; against the descriptors'
biases these exponent fields denote true exponents 0 and 1. -/
theorem decompose_scenarios :
    decompose .binary64 .little 0x3FF0000000000000 = [0, 0, 1023, 0] ∧
    decompose .binary32 .little 0xC0000000 = [0, 128, 1] ∧
    (1023 : Int) + ieee754_binary64.exponent_bias = 0 ∧
    (128 : Int) + ieee754_binary32.exponent_bias = 1 := by
  decide

/-- Claim C10: the 128-bit native-extended overlay IEEEl2bits declares
exactly the same fields, in the same order, widths and endianness
mirroring, as the fixed quad overlay IEEEbinary128, so decomposition and
composition through either overlay agree on every pattern. -/
theorem native128_equals_fixed128 :
    (∀ e, IEEEl2bits128_fields e = IEEEbinary128_fields e) ∧
    (IEEEl2bits128_fields .little).map (fun f => (f.name, f.width)) =
      [("mantissa_l", 64), ("mantissa_h", 48), ("exponent", 15), ("sign", 1)] ∧
    (∀ e n, decomposeFields (lsbOf e (IEEEl2bits128_fields e)) n =
      decomposeFields (lsbOf e (IEEEbinary128_fields e)) n) ∧
    (∀ e vs, composeFields (lsbOf e (IEEEl2bits128_fields e)) vs =
      composeFields (lsbOf e (IEEEbinary128_fields e)) vs) := by
  refine ⟨fun e => by cases e <;> rfl, by decide,
    fun e n => by cases e <;> rfl, fun e vs => by cases e <;> rfl⟩

end Charconv
